import Mathlib

/-!
# Verification of the `tol-stack` sampling-and-composition core

A shallow embedding of `tol_stack/distributions.py`, `tol_stack/part.py` and
`tol_stack/stack.py`.  Floating-point values are modelled as rationals (`ℚ`);
the ambient NumPy/SciPy random generator is modelled as an explicit oracle:
a function `ℕ → List ℚ` whose `k`-th entry stands for the array returned by
the `k`-th call to `np.random.normal` (or `skewnorm.rvs`) inside the function
under consideration.  Python exceptions are modelled by an explicit error
type; functions that can raise return `Except PyError _`, and methods that
mutate their object in place before possibly raising return the final object
state together with an optional error.
-/

namespace TolStack

/-- The distinguishable error conditions raised by the core code.  The Python
source raises `ValueError` / `AttributeError` / `TypeError`; each raise site
is mapped to its own constructor so the conditions stay distinguishable, as
the specification's error taxonomy requires. -/
inductive PyError where
  /-- `part.py`: unexpected distribution string at `Part.__init__`. -/
  | invalidDistribution
  /-- `part.py`: skewed distribution requested without a `skewiness` value. -/
  | missingSkewiness
  /-- `distributions.py`: a refill loop exceeded `_max_iterations`. -/
  | convergence
  /-- `part.py`: concentricity requested with a non-`norm` distribution. -/
  | concentricityNotImplemented
  /-- `part.py`: a runout value is set (`runout not currently implemented`). -/
  | runoutNotImplemented
  /-- Python `AttributeError`: attribute/method lookup failure. -/
  | attributeError
  /-- Python `TypeError`: arithmetic on `None` or an ill-typed argument. -/
  | typeError
  /-- Python `IndexError`: indexing into an empty list. -/
  | indexError
  /-- NumPy broadcasting failure: `+=` on arrays of different lengths. -/
  | broadcastError
  deriving Repr, DecidableEq

/-! ## `tol_stack/distributions.py` -/

/-- `_max_iterations = 100` (distributions.py, line 5). -/
def _max_iterations : ℕ := 100

/-- A random-draw oracle: `draw k` is the array produced by the `k`-th
`np.random.normal(loc, scale, size)` call of the function being modelled. -/
abbrev Draw := ℕ → List ℚ

/-- The `while len(values) < size` refill loop shared by `norm_screened`,
`norm_notched`, `norm_lt` and `norm_gt`: append a fresh batch, keep the
values satisfying the screening predicate, and raise once the iteration
counter passes `_max_iterations`.  `fuel` is the number of loop iterations
still allowed before the `count > _max_iterations` raise fires; the source
runs the loop body with `count = 1, …, 100` normally and raises inside the
101-st body, so a top-level call passes `fuel = _max_iterations`. -/
def refill (keep : ℚ → Bool) (size : ℕ) (draw : Draw) :
    ℕ → List ℚ → ℕ → Except PyError (List ℚ)
  | fuel, values, k =>
    if values.length < size then
      match fuel with
      | 0 => .error .convergence
      | fuel' + 1 => refill keep size draw fuel' ((values ++ draw k).filter keep) (k + 1)
    else
      .ok values

/-- `norm(loc, scale, size)`: one plain normal draw.  The oracle stands for
`np.random.normal(loc=loc, scale=scale, size=size)`. -/
def norm (loc scale : ℚ) (size : ℕ) (draw : Draw) : List ℚ :=
  let _ := loc
  let _ := scale
  let _ := size
  draw 0

/-- `norm_screened(loc, scale, limits, size)`: draw, keep the values inside
`[low, high]`, refill until `size` values are on hand, then truncate to
exactly `size`.  With `limits=None` the initial draw is returned as is. -/
def norm_screened (loc scale : ℚ) (limits : Option (ℚ × ℚ)) (size : ℕ)
    (draw : Draw) : Except PyError (List ℚ) :=
  let values := norm loc scale size draw
  match limits with
  | none => .ok values
  | some (low_limit, high_limit) =>
    let keep : ℚ → Bool := fun x => decide (low_limit ≤ x ∧ x ≤ high_limit)
    match refill keep size draw _max_iterations (values.filter keep) 1 with
    | .error e => .error e
    | .ok vs => .ok (vs.take size)

/-- `norm_notched(loc, scale, limits, size)`: like `norm_screened` but keeps
the complement band `v <= low or v >= high`. -/
def norm_notched (loc scale : ℚ) (limits : Option (ℚ × ℚ)) (size : ℕ)
    (draw : Draw) : Except PyError (List ℚ) :=
  let values := norm loc scale size draw
  match limits with
  | none => .ok values
  | some (low_limit, high_limit) =>
    let keep : ℚ → Bool := fun x => decide (x ≤ low_limit ∨ high_limit ≤ x)
    match refill keep size draw _max_iterations (values.filter keep) 1 with
    | .error e => .error e
    | .ok vs => .ok (vs.take size)

/-- `norm_lt(loc, scale, limit, size)`: keeps `values <= limit`; always
screens (no `limits is None` branch in the source). -/
def norm_lt (loc scale limit : ℚ) (size : ℕ) (draw : Draw) :
    Except PyError (List ℚ) :=
  let keep : ℚ → Bool := fun x => decide (x ≤ limit)
  match refill keep size draw _max_iterations
      ((norm loc scale size draw).filter keep) 1 with
  | .error e => .error e
  | .ok vs => .ok (vs.take size)

/-- `norm_gt(loc, scale, limit, size)`: keeps `values >= limit`. -/
def norm_gt (loc scale limit : ℚ) (size : ℕ) (draw : Draw) :
    Except PyError (List ℚ) :=
  let keep : ℚ → Bool := fun x => decide (limit ≤ x)
  match refill keep size draw _max_iterations
      ((norm loc scale size draw).filter keep) 1 with
  | .error e => .error e
  | .ok vs => .ok (vs.take size)

/-- `skew_normal(skewiness, loc, scale, size)`: one skew-normal draw, with
the oracle standing for `skewnorm.rvs(skewiness, loc, scale, size)`. -/
def skew_normal (skewiness loc scale : ℚ) (size : ℕ) (draw : Draw) : List ℚ :=
  let _ := skewiness
  let _ := loc
  let _ := scale
  let _ := size
  draw 0

/-! ## `tol_stack/part.py` -/

/-- Python `str.lower()` on the Latin alphabet (the recognized distribution
tags are all ASCII). -/
def pyLower (s : String) : String := ⟨s.data.map Char.toLower⟩

/-- Python's case-sensitive substring test `needle in hay`. -/
def pyContains (hay needle : String) : Bool :=
  (List.range (hay.data.length + 1)).any fun i =>
    needle.data.isPrefixOf (hay.data.drop i)

/-- The `limits` constructor argument is an untyped union in the source
(`(tuple, float)`): either a single screening value or a low/high pair. -/
inductive PyLimits where
  | scalar (x : ℚ)
  | pair (low high : ℚ)
  deriving Repr, DecidableEq

/-- `Part.retrieve_distributions()` (part.py, lines 117–120). -/
def validDistributions : List String :=
  ["norm", "norm-screened", "norm-notched", "norm-lt", "norm-gt", "skew-norm"]

/-- Python's `abs()` (and NumPy's `np.abs`) on a rational. -/
def pyAbs (x : ℚ) : ℚ := if x < 0 then -x else x

/-- `self.tolerance = abs(tolerance) if tolerance else tolerance`: Python
truthiness keeps `None` and `0` as given and takes the absolute value
otherwise. -/
def normalizeTolerance : Option ℚ → Option ℚ
  | none => none
  | some v => if v = 0 then some v else some (pyAbs v)

/-- The state of a `Part` object: the constructor arguments as stored by
`__init__` plus the two sample populations.  Concentricity samples are
complex values, modelled as real/imaginary pairs.  The `material`, `cte`,
`comment` and `images` attributes are pure pass-through metadata with no
computational role and are not modelled. -/
structure Part where
  name : String
  distribution : String
  nominal_length : Option ℚ
  tolerance : Option ℚ
  concentricity : Option ℚ
  runout : Option ℚ
  limits : Option PyLimits
  size : ℕ
  skewiness : Option ℚ
  lengths : Option (List ℚ)
  concentricities : Option (List (ℚ × ℚ))
  deriving Repr, DecidableEq

/-- The random inputs consumed by one `Part.refresh` call: the batches for
the length-population sampler, the batch for the concentricity radial draw,
and the unit vectors `e^{iθ}` produced by the uniform angle draw. -/
structure Rand where
  drawL : Draw
  drawC : Draw
  angles : List (ℚ × ℚ)

/-- `self.tolerance / 3`: arithmetic on `None` raises a `TypeError`. -/
def pyScale3 : Option ℚ → Except PyError ℚ
  | none => .error .typeError
  | some t => .ok (t / 3)

/-- The length-population dispatch inside `Part.refresh` (part.py, lines
133–188), entered when `nominal_length` is set.  The `norm-lt`/`norm-gt`
branches take the first element when `_limits` is a tuple and the value
itself otherwise; comparing against a missing limit raises.  The
`skew-norm` branch passes `scale = tolerance` (not `tolerance / 3`) and
SciPy rejects a `None` skewiness. -/
def Part.lengthsSample (p : Part) (nom : ℚ) (draw : Draw) :
    Except PyError (List ℚ) :=
  if p.distribution = "norm" then do
    let s ← pyScale3 p.tolerance
    .ok (norm nom s p.size draw)
  else if p.distribution = "norm-screened" then do
    let s ← pyScale3 p.tolerance
    match p.limits with
    | none => norm_screened nom s none p.size draw
    | some (.pair low high) => norm_screened nom s (some (low, high)) p.size draw
    | some (.scalar _) => .error .typeError
  else if p.distribution = "norm-notched" then do
    let s ← pyScale3 p.tolerance
    match p.limits with
    | none => norm_notched nom s none p.size draw
    | some (.pair low high) => norm_notched nom s (some (low, high)) p.size draw
    | some (.scalar _) => .error .typeError
  else if p.distribution = "norm-lt" then do
    let s ← pyScale3 p.tolerance
    match p.limits with
    | some (.pair low _) => norm_lt nom s low p.size draw
    | some (.scalar x) => norm_lt nom s x p.size draw
    | none => .error .typeError
  else if p.distribution = "norm-gt" then do
    let s ← pyScale3 p.tolerance
    match p.limits with
    | some (.pair low _) => norm_gt nom s low p.size draw
    | some (.scalar x) => norm_gt nom s x p.size draw
    | none => .error .typeError
  else if p.distribution = "skew-norm" then
    match p.skewiness, p.tolerance with
    | some sk, some t => .ok (skew_normal sk nom t p.size draw)
    | _, _ => .error .typeError
  else
    .error .invalidDistribution

/-- The trailing `if self.runout is not None: raise` block of
`Part.refresh` (part.py, lines 205–206). -/
def Part.refreshRunout (p : Part) : Part × Option PyError :=
  match p.runout with
  | some _ => (p, some .runoutNotImplemented)
  | none => (p, none)

/-- The `if self.concentricity is not None` block of `Part.refresh`
(part.py, lines 190–203): for the `norm` distribution, draw radial
magnitudes from a centered normal with `scale = concentricity / 3` and pair
them with uniformly random angles (`r * exp(1j*theta)`); any other
distribution raises. -/
def Part.refreshConc (p : Part) (r : Rand) : Part × Option PyError :=
  match p.concentricity with
  | some c =>
    if p.distribution = "norm" then
      let rs := norm 0 (c / 3) p.size r.drawC
      let cs := List.zipWith (fun ri u => (ri * u.1, ri * u.2)) rs r.angles
      let p' := { p with concentricities := some cs }
      p'.refreshRunout
    else
      (p, some .concentricityNotImplemented)
  | none => p.refreshRunout

/-- The body of `Part.refresh` after the optional size override (part.py,
lines 132–206): the length block runs first and reassigns `lengths` on
success; the concentricity block and the runout check follow. -/
def Part.refreshBody (p : Part) (r : Rand) : Part × Option PyError :=
  match p.nominal_length with
  | some nom =>
    match p.lengthsSample nom r.drawL with
    | .error e => (p, some e)
    | .ok ls => Part.refreshConc { p with lengths := some ls } r
  | none => p.refreshConc r

/-- `Part.refresh(size=None)` (part.py, lines 122–206).  The method mutates
the object in place and may raise part-way through; the result is the final
object state together with the raised error, if any.  A non-`None` `size`
argument overwrites `self._size` before anything else. -/
def Part.refresh (p₀ : Part) (size? : Option ℕ) (r : Rand) :
    Part × Option PyError :=
  match size? with
  | some n => Part.refreshBody { p₀ with size := n } r
  | none => Part.refreshBody p₀ r

/-- The attribute assignments of `Part.__init__` (part.py, lines 69–101):
the lowered distribution tag, the absolute tolerance, and empty
populations. -/
def Part.initRecord (name distribution : String) (size : ℕ)
    (nominal_length tolerance concentricity runout : Option ℚ)
    (limits : Option PyLimits) (skewiness : Option ℚ) : Part :=
  { name
    distribution := pyLower distribution
    nominal_length
    tolerance := normalizeTolerance tolerance
    concentricity
    runout
    limits
    size
    skewiness
    lengths := none
    concentricities := none }

/-- `Part.__init__` (part.py, lines 43–103): validate the distribution tag
case-insensitively, require a skewiness for skewed distributions (the
`'skew' in distribution` test is on the original, un-lowered string), store
the lowered tag and the absolute tolerance, then `refresh`. -/
def Part.init (name distribution : String) (size : ℕ)
    (nominal_length tolerance concentricity runout : Option ℚ)
    (limits : Option PyLimits) (skewiness : Option ℚ) (r : Rand) :
    Except PyError Part :=
  if pyLower distribution ∉ validDistributions then
    .error .invalidDistribution
  else if pyContains distribution "skew" && skewiness.isNone then
    .error .missingSkewiness
  else
    match (Part.initRecord name distribution size nominal_length tolerance
        concentricity runout limits skewiness).refresh none r with
    | (p', none) => .ok p'
    | (_, some e) => .error e

/-- The dictionary returned by `Part.to_dict()` (part.py, lines 109–115):
keys `name`, `distribution`, `nominal value`, `tolerance`. -/
structure PartDict where
  name : String
  distribution : String
  nominal_value : Option ℚ
  tolerance : Option ℚ
  deriving Repr, DecidableEq

/-- `Part.to_dict()`. -/
def Part.to_dict (p : Part) : PartDict :=
  { name := p.name
    distribution := p.distribution
    nominal_value := p.nominal_length
    tolerance := p.tolerance }

/-- The effect of rendering `Part.__repr__` (part.py, lines 105–107): the
f-string formats `nom={self.nominal_length:.03f}` and
`±{self.tolerance:.03f}`, and Python's `format(None, '.03f')` raises
`TypeError`, so the rendering fails whenever either value is `None`.  The
rendered text itself is display-only and not modelled. -/
def Part.reprEval (p : Part) : Except PyError Unit :=
  match p.nominal_length, p.tolerance with
  | some _, some _ => .ok ()
  | _, _ => .error .typeError

/-! ## `tol_stack/stack.py` -/

/-- The methods defined in the body of `class Part` (part.py). -/
def partClassMethods : List String :=
  ["__init__", "__repr__", "to_dict", "retrieve_distributions", "refresh",
   "show_length_dist", "show_concentricity_dist"]

/-- The instance attributes assigned by `Part.__init__` (part.py, lines
57–101). -/
def partInstanceAttributes : List String :=
  ["_logger", "name", "distribution", "nominal_length", "tolerance",
   "concentricity", "runout", "material", "cte", "comment", "_limits",
   "_size", "_skewiness", "images", "lengths", "concentricities"]

/-- Python attribute lookup on a `Part` instance: it succeeds when the name
is an instance attribute or a method of the class, and raises
`AttributeError` otherwise. -/
def Part.getattr (p : Part) (attrName : String) : Except PyError Unit :=
  let _ := p
  if attrName ∈ partInstanceAttributes ∨ attrName ∈ partClassMethods then
    .ok ()
  else
    .error .attributeError

/-- The state of a `StackPath` object (stack.py, lines 31–71): the ordered
part list, the target limits (the `concentricity` argument is stored as
`max_concentricity`), and the sample count.  The `images` attribute is
display-only and not modelled. -/
structure StackPath where
  parts : List Part
  max_length : Option ℚ
  min_length : Option ℚ
  max_concentricity : Option ℚ
  name : String
  description : Option String
  size : ℕ
  deriving Repr, DecidableEq

/-- `StackPath.__init__`: begins with an empty part list. -/
def StackPath.init (name : String) (description : Option String)
    (max_length min_length concentricity : Option ℚ) (size : ℕ) : StackPath :=
  { parts := []
    max_length
    min_length
    max_concentricity := concentricity
    name
    description
    size }

/-- The `is_length` property (stack.py, lines 73–75). -/
def StackPath.is_length (sp : StackPath) : Bool :=
  sp.max_length.isSome || sp.min_length.isSome

/-- The `is_concentricity` property (stack.py, lines 77–79). -/
def StackPath.is_concentricity (sp : StackPath) : Bool :=
  sp.max_concentricity.isSome

/-- `StackPath.add_part` (stack.py, lines 81–91): the body is
`self._logger.info(f'adding part {part} to stack path')`, then
`part.set_size(self.size)`, then `self.parts.append(part)`.  The log
f-string is evaluated eagerly and renders the part via `Part.__repr__`,
which raises `TypeError` when `nominal_length` or `tolerance` is `None`;
only then is `part.set_size` looked up, which raises `AttributeError`
because `Part` defines no such method.  Either failure precedes the append,
so the stack path is returned unmodified together with the error.  (The
final `.ok` branch — which would resize and append — is unreachable; the
resize effect of the nonexistent method is therefore not modelled.) -/
def StackPath.add_part (sp : StackPath) (p : Part) :
    StackPath × Option PyError :=
  match p.reprEval with
  | .error e => (sp, some e)
  | .ok _ =>
    match p.getattr "set_size" with
    | .error e => (sp, some e)
    | .ok _ => ({ sp with parts := sp.parts ++ [p] }, none)

/-- `StackPath.retrieve_parts(safe=True)` returns a (copy of) the part
list. -/
def StackPath.retrieve_parts (sp : StackPath) : List Part := sp.parts

/-- NumPy `finals += part.lengths`: elementwise addition of equal-length
arrays; mismatched lengths fail to broadcast.  (NumPy's length-1 scalar
broadcasting is not modelled; the compositions under study combine
equal-length populations.) -/
def npAdd (a b : List ℚ) : Except PyError (List ℚ) :=
  if a.length = b.length then .ok (List.zipWith (· + ·) a b)
  else .error .broadcastError

/-- NumPy `finals += part.concentricities` on complex arrays. -/
def npAddC (a b : List (ℚ × ℚ)) : Except PyError (List (ℚ × ℚ)) :=
  if a.length = b.length then
    .ok (List.zipWith (fun x y => (x.1 + y.1, x.2 + y.2)) a b)
  else .error .broadcastError

/-- The loop of `StackPath._refresh_parts` (stack.py, lines 107–114): each
part is refreshed with its own random input `rs i` and must end up with a
length population. -/
def refreshPartsAux (rs : ℕ → Rand) : List Part → ℕ → Except PyError (List Part)
  | [], _ => .ok []
  | p :: ps, i =>
    match p.refresh none (rs i) with
    | (_, some e) => .error e
    | (p', none) =>
      if p'.lengths.isNone then .error .attributeError
      else do
        let ps' ← refreshPartsAux rs ps (i + 1)
        .ok (p' :: ps')

/-- `StackPath._refresh_parts`. -/
def StackPath._refresh_parts (sp : StackPath) (rs : ℕ → Rand) :
    Except PyError StackPath := do
  let parts' ← refreshPartsAux rs sp.parts 0
  .ok { sp with parts := parts' }

/-- Extracts every part's length population (used after `_refresh_parts`,
whose check makes the `none` branch unreachable). -/
def getLengthPops : List Part → Except PyError (List (List ℚ))
  | [] => .ok []
  | p :: ps =>
    match p.lengths with
    | none => .error .attributeError
    | some l => do
      let rest ← getLengthPops ps
      .ok (l :: rest)

/-- The numeric core of `StackPath.show_length_dist` (stack.py, lines
157–213): refresh all parts, walk the flow-chart arrow loop (which adds up
`part.nominal_length` values and therefore needs every nominal present),
then accumulate `finals = np.zeros(len(parts[0].lengths))` plus every
part's length population.  Returns the composed `finals` population. -/
def StackPath.show_length_dist_finals (sp : StackPath) (rs : ℕ → Rand) :
    Except PyError (List ℚ) := do
  let sp' ← sp._refresh_parts rs
  match sp'.parts with
  | [] => .error .indexError
  | p0 :: _ =>
    if sp'.parts.all fun q => q.nominal_length.isSome then do
      let pops ← getLengthPops sp'.parts
      pops.foldlM npAdd (List.replicate (p0.lengths.getD []).length 0)
    else
      .error .typeError

/-- The refresh-and-check loop opening `StackPath.show_concentricity_dist`
(stack.py, lines 253–257): every part must end up with a concentricity
population. -/
def refreshConcAux (rs : ℕ → Rand) : List Part → ℕ → Except PyError (List Part)
  | [], _ => .ok []
  | p :: ps, i =>
    match p.refresh none (rs i) with
    | (_, some e) => .error e
    | (p', none) =>
      if p'.concentricities.isNone then .error .attributeError
      else do
        let ps' ← refreshConcAux rs ps (i + 1)
        .ok (p' :: ps')

/-- Extracts every part's concentricity population. -/
def getConcPops : List Part → Except PyError (List (List (ℚ × ℚ)))
  | [] => .ok []
  | p :: ps =>
    match p.concentricities with
    | none => .error .attributeError
    | some l => do
      let rest ← getConcPops ps
      .ok (l :: rest)

/-- `(abs(finals.real) >= self.max_concentricity).sum()` (stack.py, line
296): the number of composed samples whose REAL PART has absolute value at
least `c`. -/
def out_of_range_count (finals : List (ℚ × ℚ)) (c : ℚ) : ℕ :=
  (finals.filter fun z => decide (c ≤ pyAbs z.1)).length

/-- Modelled from the claim's words, for comparison with
`out_of_range_count`: the number of composed samples whose complex modulus
is at least `c`.  For `c ≥ 0`, `|z| ≥ c ↔ c² ≤ re² + im²`, which keeps the
definition inside `ℚ`. -/
def modulus_out_count (finals : List (ℚ × ℚ)) (c : ℚ) : ℕ :=
  (finals.filter fun z => decide (c * c ≤ z.1 * z.1 + z.2 * z.2)).length

/-- The numeric core of `StackPath.show_concentricity_dist` (stack.py,
lines 252–304): refresh and check every part, accumulate the complex
elementwise sum `finals` starting from a zero complex array of the first
part's population length, then report
`percent_fail = 100 * out_of_range / total` where `out_of_range` counts
samples with `abs(finals.real) >= max_concentricity`. -/
def StackPath.show_concentricity_stat (sp : StackPath) (rs : ℕ → Rand) :
    Except PyError ℚ := do
  let parts' ← refreshConcAux rs sp.parts 0
  match parts' with
  | [] => .error .indexError
  | p0 :: _ => do
    let pops ← getConcPops parts'
    let zeroes := List.replicate (p0.concentricities.getD []).length ((0 : ℚ), (0 : ℚ))
    let finals ← pops.foldlM npAddC zeroes
    match sp.max_concentricity with
    | none => .error .typeError
    | some c => .ok (100 * (out_of_range_count finals c : ℚ) / (finals.length : ℚ))

/-! ## Helper lemmas about the refill loop -/

theorem refill_ok_length {keep : ℚ → Bool} {size : ℕ} {draw : Draw} :
    ∀ {fuel : ℕ} {values : List ℚ} {k : ℕ} {r : List ℚ},
    refill keep size draw fuel values k = .ok r → size ≤ r.length := by
  intro fuel
  induction fuel with
  | zero =>
    intro values k r h
    rw [refill] at h
    split at h
    · exact absurd h (by simp)
    · next hge =>
      cases h
      omega
  | succ fuel ih =>
    intro values k r h
    rw [refill] at h
    split at h
    · exact ih h
    · next hge =>
      cases h
      omega

theorem refill_error_convergence {keep : ℚ → Bool} {size : ℕ} {draw : Draw} :
    ∀ {fuel : ℕ} {values : List ℚ} {k : ℕ} {e : PyError},
    refill keep size draw fuel values k = .error e → e = .convergence := by
  intro fuel
  induction fuel with
  | zero =>
    intro values k e h
    rw [refill] at h
    split at h
    · cases h; rfl
    · exact absurd h (by simp)
  | succ fuel ih =>
    intro values k e h
    rw [refill] at h
    split at h
    · exact ih h
    · exact absurd h (by simp)

theorem refill_ok_mem {keep : ℚ → Bool} {size : ℕ} {draw : Draw} :
    ∀ {fuel : ℕ} {values : List ℚ} {k : ℕ} {r : List ℚ},
    refill keep size draw fuel values k = .ok r →
    (∀ x ∈ values, keep x = true) → ∀ x ∈ r, keep x = true := by
  intro fuel
  induction fuel with
  | zero =>
    intro values k r h hv
    rw [refill] at h
    split at h
    · exact absurd h (by simp)
    · cases h; exact hv
  | succ fuel ih =>
    intro values k r h hv
    rw [refill] at h
    split at h
    · exact ih h fun x hx => (List.mem_filter.mp hx).2
    · cases h; exact hv

theorem refill_draw_congr {keep : ℚ → Bool} {size : ℕ} :
    ∀ {fuel : ℕ} {values : List ℚ} {k : ℕ} {draw draw' : Draw},
    (∀ j, j < k + fuel → draw j = draw' j) →
    refill keep size draw fuel values k = refill keep size draw' fuel values k := by
  intro fuel
  induction fuel with
  | zero =>
    intro values k draw draw' _
    rw [refill, refill]
  | succ fuel ih =>
    intro values k draw draw' hagree
    rw [refill, refill]
    split
    · rw [hagree k (by omega)]
      exact ih fun j hj => hagree j (by omega)
    · rfl

theorem norm_screened_error_convergence {loc scale : ℚ}
    {limits : Option (ℚ × ℚ)} {size : ℕ} {draw : Draw} {e : PyError}
    (h : norm_screened loc scale limits size draw = .error e) :
    e = .convergence := by
  simp only [norm_screened] at h
  split at h
  · exact absurd h (by simp)
  · split at h
    · next heq => cases h; exact refill_error_convergence heq
    · exact absurd h (by simp)

theorem norm_notched_error_convergence {loc scale : ℚ}
    {limits : Option (ℚ × ℚ)} {size : ℕ} {draw : Draw} {e : PyError}
    (h : norm_notched loc scale limits size draw = .error e) :
    e = .convergence := by
  simp only [norm_notched] at h
  split at h
  · exact absurd h (by simp)
  · split at h
    · next heq => cases h; exact refill_error_convergence heq
    · exact absurd h (by simp)

theorem norm_lt_error_convergence {loc scale limit : ℚ} {size : ℕ}
    {draw : Draw} {e : PyError}
    (h : norm_lt loc scale limit size draw = .error e) : e = .convergence := by
  simp only [norm_lt] at h
  split at h
  · next heq => cases h; exact refill_error_convergence heq
  · exact absurd h (by simp)

theorem norm_gt_error_convergence {loc scale limit : ℚ} {size : ℕ}
    {draw : Draw} {e : PyError}
    (h : norm_gt loc scale limit size draw = .error e) : e = .convergence := by
  simp only [norm_gt] at h
  split at h
  · next heq => cases h; exact refill_error_convergence heq
  · exact absurd h (by simp)

theorem norm_screened_ok_length {loc scale low high : ℚ} {size : ℕ}
    {draw : Draw} {vs : List ℚ}
    (h : norm_screened loc scale (some (low, high)) size draw = .ok vs) :
    vs.length = size := by
  simp only [norm_screened] at h
  split at h
  · exact absurd h (by simp)
  · next r heq =>
    cases h
    rw [List.length_take]
    exact min_eq_left (refill_ok_length heq)

theorem norm_notched_ok_length {loc scale low high : ℚ} {size : ℕ}
    {draw : Draw} {vs : List ℚ}
    (h : norm_notched loc scale (some (low, high)) size draw = .ok vs) :
    vs.length = size := by
  simp only [norm_notched] at h
  split at h
  · exact absurd h (by simp)
  · next r heq =>
    cases h
    rw [List.length_take]
    exact min_eq_left (refill_ok_length heq)

theorem norm_lt_ok_length {loc scale limit : ℚ} {size : ℕ} {draw : Draw}
    {vs : List ℚ} (h : norm_lt loc scale limit size draw = .ok vs) :
    vs.length = size := by
  simp only [norm_lt] at h
  split at h
  · exact absurd h (by simp)
  · next r heq =>
    cases h
    rw [List.length_take]
    exact min_eq_left (refill_ok_length heq)

theorem norm_gt_ok_length {loc scale limit : ℚ} {size : ℕ} {draw : Draw}
    {vs : List ℚ} (h : norm_gt loc scale limit size draw = .ok vs) :
    vs.length = size := by
  simp only [norm_gt] at h
  split at h
  · exact absurd h (by simp)
  · next r heq =>
    cases h
    rw [List.length_take]
    exact min_eq_left (refill_ok_length heq)

theorem norm_screened_ok_mem {loc scale low high : ℚ} {size : ℕ}
    {draw : Draw} {vs : List ℚ}
    (h : norm_screened loc scale (some (low, high)) size draw = .ok vs) :
    ∀ v ∈ vs, low ≤ v ∧ v ≤ high := by
  simp only [norm_screened] at h
  split at h
  · exact absurd h (by simp)
  · next r heq =>
    cases h
    intro v hv
    have hkeep := refill_ok_mem heq
      (fun x hx => (List.mem_filter.mp hx).2) v (List.take_subset _ _ hv)
    exact of_decide_eq_true hkeep

theorem norm_notched_ok_mem {loc scale low high : ℚ} {size : ℕ}
    {draw : Draw} {vs : List ℚ}
    (h : norm_notched loc scale (some (low, high)) size draw = .ok vs) :
    ∀ v ∈ vs, v ≤ low ∨ high ≤ v := by
  simp only [norm_notched] at h
  split at h
  · exact absurd h (by simp)
  · next r heq =>
    cases h
    intro v hv
    have hkeep := refill_ok_mem heq
      (fun x hx => (List.mem_filter.mp hx).2) v (List.take_subset _ _ hv)
    exact of_decide_eq_true hkeep

theorem norm_lt_ok_mem {loc scale limit : ℚ} {size : ℕ} {draw : Draw}
    {vs : List ℚ} (h : norm_lt loc scale limit size draw = .ok vs) :
    ∀ v ∈ vs, v ≤ limit := by
  simp only [norm_lt] at h
  split at h
  · exact absurd h (by simp)
  · next r heq =>
    cases h
    intro v hv
    have hkeep := refill_ok_mem heq
      (fun x hx => (List.mem_filter.mp hx).2) v (List.take_subset _ _ hv)
    exact of_decide_eq_true hkeep

theorem norm_gt_ok_mem {loc scale limit : ℚ} {size : ℕ} {draw : Draw}
    {vs : List ℚ} (h : norm_gt loc scale limit size draw = .ok vs) :
    ∀ v ∈ vs, limit ≤ v := by
  simp only [norm_gt] at h
  split at h
  · exact absurd h (by simp)
  · next r heq =>
    cases h
    intro v hv
    have hkeep := refill_ok_mem heq
      (fun x hx => (List.mem_filter.mp hx).2) v (List.take_subset _ _ hv)
    exact of_decide_eq_true hkeep

/-! ## Claims about the sampler library -/

/-- A concrete two-value draw oracle used by witnesses. -/
def d57 : Draw := fun _ => [5, 7]

/-- **C4**: For every supported sampler (plain normal, in-band screened,
out-of-band notched, below-limit, above-limit, skew-normal) and every call
with valid loc, scale, limits, and size that returns normally, the returned
array has length exactly equal to size — screened variants truncate any
excess after the final refill rather than returning more or fewer than size
values. -/
theorem c4_sample_length_eq_size (size : ℕ) (draw : Draw)
    (hdraw : ∀ k, (draw k).length = size) :
    (∀ loc scale, (norm loc scale size draw).length = size) ∧
    (∀ skw loc scale, (skew_normal skw loc scale size draw).length = size) ∧
    (∀ loc scale limits vs,
      norm_screened loc scale limits size draw = .ok vs → vs.length = size) ∧
    (∀ loc scale limits vs,
      norm_notched loc scale limits size draw = .ok vs → vs.length = size) ∧
    (∀ loc scale limit vs,
      norm_lt loc scale limit size draw = .ok vs → vs.length = size) ∧
    (∀ loc scale limit vs,
      norm_gt loc scale limit size draw = .ok vs → vs.length = size) := by
  refine ⟨fun loc scale => hdraw 0, fun skw loc scale => hdraw 0,
    ?_, ?_, ?_, ?_⟩
  · rintro loc scale (_ | ⟨low, high⟩) vs h
    · simp only [norm_screened] at h
      cases h
      simpa [norm] using hdraw 0
    · exact norm_screened_ok_length h
  · rintro loc scale (_ | ⟨low, high⟩) vs h
    · simp only [norm_notched] at h
      cases h
      simpa [norm] using hdraw 0
    · exact norm_notched_ok_length h
  · exact fun loc scale limit vs h => norm_lt_ok_length h
  · exact fun loc scale limit vs h => norm_gt_ok_length h

theorem c4_sample_length_eq_size_witness :
    (norm 0 1 2 d57).length = 2 ∧
    (skew_normal 1 0 1 2 d57).length = 2 ∧
    (norm_lt 0 1 10 2 d57).toOption.map List.length = some 2 := by
  have h := c4_sample_length_eq_size 2 d57 (fun _ => rfl)
  have hlt : norm_lt 0 1 10 2 d57 = .ok [5, 7] := rfl
  have hl := h.2.2.2.2.1 0 1 10 [5, 7] hlt
  exact ⟨h.1 0 1, h.2.1 1 0 1, by rw [hlt]; simp [Except.toOption, hl]⟩

/-- **C5**: For every call that returns normally with a limits pair
(low, high) or a scalar limit: every element of the in-band screened
sampler's result satisfies low ≤ v ≤ high; every element of the out-of-band
notched sampler's result satisfies v ≤ low or v ≥ high; every element of the
below-limit sampler's result satisfies v ≤ limit; and every element of the
above-limit sampler's result satisfies v ≥ limit. -/
theorem c5_screened_membership :
    (∀ (loc scale low high : ℚ) (size : ℕ) (draw : Draw) (vs : List ℚ),
      norm_screened loc scale (some (low, high)) size draw = .ok vs →
      ∀ v ∈ vs, low ≤ v ∧ v ≤ high) ∧
    (∀ (loc scale low high : ℚ) (size : ℕ) (draw : Draw) (vs : List ℚ),
      norm_notched loc scale (some (low, high)) size draw = .ok vs →
      ∀ v ∈ vs, v ≤ low ∨ high ≤ v) ∧
    (∀ (loc scale limit : ℚ) (size : ℕ) (draw : Draw) (vs : List ℚ),
      norm_lt loc scale limit size draw = .ok vs → ∀ v ∈ vs, v ≤ limit) ∧
    (∀ (loc scale limit : ℚ) (size : ℕ) (draw : Draw) (vs : List ℚ),
      norm_gt loc scale limit size draw = .ok vs → ∀ v ∈ vs, limit ≤ v) :=
  ⟨fun _ _ _ _ _ _ _ h => norm_screened_ok_mem h,
   fun _ _ _ _ _ _ _ h => norm_notched_ok_mem h,
   fun _ _ _ _ _ _ h => norm_lt_ok_mem h,
   fun _ _ _ _ _ _ h => norm_gt_ok_mem h⟩

theorem c5_screened_membership_witness :
    ((5 : ℚ) ≤ 10) ∧ ((7 : ℚ) ≤ 10) := by
  have hlt : norm_lt 0 1 10 2 d57 = .ok [5, 7] := rfl
  have h := c5_screened_membership.2.2.1 0 1 10 2 d57 [5, 7] hlt
  exact ⟨h 5 (by simp), h 7 (by simp)⟩

/-- **C6**: Every call to a screened/notched/one-sided sampler terminates:
its iterative batch-refill loop is capped at a fixed ceiling of 100
iterations (`_max_iterations`), and when the ceiling is exceeded without
accumulating at least size in-band samples the call fails with a
ConvergenceError-class error instead of looping further, so the call either
returns exactly size values or raises after a bounded number of refills.
The final conjunct expresses the bound: a refill loop with `fuel` allowed
iterations starting at batch `k` only ever reads draws `k, …, k+fuel-1`. -/
theorem c6_refill_convergence_guard :
    _max_iterations = 100 ∧
    (∀ (loc scale low high : ℚ) (size : ℕ) (draw : Draw),
      (∃ vs, norm_screened loc scale (some (low, high)) size draw = .ok vs ∧
        vs.length = size) ∨
      norm_screened loc scale (some (low, high)) size draw =
        .error .convergence) ∧
    (∀ (loc scale low high : ℚ) (size : ℕ) (draw : Draw),
      (∃ vs, norm_notched loc scale (some (low, high)) size draw = .ok vs ∧
        vs.length = size) ∨
      norm_notched loc scale (some (low, high)) size draw =
        .error .convergence) ∧
    (∀ (loc scale limit : ℚ) (size : ℕ) (draw : Draw),
      (∃ vs, norm_lt loc scale limit size draw = .ok vs ∧ vs.length = size) ∨
      norm_lt loc scale limit size draw = .error .convergence) ∧
    (∀ (loc scale limit : ℚ) (size : ℕ) (draw : Draw),
      (∃ vs, norm_gt loc scale limit size draw = .ok vs ∧ vs.length = size) ∨
      norm_gt loc scale limit size draw = .error .convergence) ∧
    (∀ (keep : ℚ → Bool) (size fuel : ℕ) (values : List ℚ) (k : ℕ)
        (draw draw' : Draw),
      (∀ j, j < k + fuel → draw j = draw' j) →
      refill keep size draw fuel values k =
        refill keep size draw' fuel values k) := by
  refine ⟨rfl, ?_, ?_, ?_, ?_,
    fun keep size fuel values k draw draw' hagree =>
      refill_draw_congr hagree⟩
  · intro loc scale low high size draw
    cases h : norm_screened loc scale (some (low, high)) size draw with
    | ok vs => exact Or.inl ⟨vs, rfl, norm_screened_ok_length h⟩
    | error e =>
      have he := norm_screened_error_convergence h
      subst he
      exact Or.inr rfl
  · intro loc scale low high size draw
    cases h : norm_notched loc scale (some (low, high)) size draw with
    | ok vs => exact Or.inl ⟨vs, rfl, norm_notched_ok_length h⟩
    | error e =>
      have he := norm_notched_error_convergence h
      subst he
      exact Or.inr rfl
  · intro loc scale limit size draw
    cases h : norm_lt loc scale limit size draw with
    | ok vs => exact Or.inl ⟨vs, rfl, norm_lt_ok_length h⟩
    | error e =>
      have he := norm_lt_error_convergence h
      subst he
      exact Or.inr rfl
  · intro loc scale limit size draw
    cases h : norm_gt loc scale limit size draw with
    | ok vs => exact Or.inl ⟨vs, rfl, norm_gt_ok_length h⟩
    | error e =>
      have he := norm_gt_error_convergence h
      subst he
      exact Or.inr rfl

theorem c6_refill_convergence_guard_witness :
    ((∃ vs, norm_screened 0 1 (some (20, 30)) 2 d57 = .ok vs ∧
        vs.length = 2) ∨
      norm_screened 0 1 (some (20, 30)) 2 d57 = .error .convergence) ∧
    refill (fun x => decide (x ≤ 10)) 2 d57 100 [] 0 =
      refill (fun x => decide (x ≤ 10)) 2 d57 100 [] 0 := by
  have h := c6_refill_convergence_guard
  exact ⟨h.2.1 0 1 20 30 2 d57,
    h.2.2.2.2.2 _ 2 100 [] 0 d57 d57 (fun j hj => rfl)⟩

/-! ## Claims about `StackPath.add_part` -/

/-- An empty concentricity-mode stack path (for the C2 counterexample and
witness). -/
def c2stack : StackPath :=
  { parts := []
    max_length := none
    min_length := none
    max_concentricity := some 1
    name := "Tolerance Stackup Report"
    description := none
    size := 1 }

/-- A concentricity-only part (`nominal_length` and `tolerance` both None),
as stack.py's own demonstration code builds and passes to `add_part` (for
the C2 counterexample). -/
def c2part : Part :=
  { name := "part0"
    distribution := "norm"
    nominal_length := none
    tolerance := none
    concentricity := some 1
    runout := none
    limits := none
    size := 1
    skewiness := none
    lengths := none
    concentricities := none }

/-- **C2 counterexample**: `add_part` does not raise AttributeError for
EVERY Part.  For a Part whose `nominal_length`/`tolerance` are None (such
as the concentricity-only parts stack.py's own `__main__` feeds to
`add_part`), the eagerly evaluated log f-string
`f'adding part {part} to stack path'` renders `Part.__repr__`, whose
`{None:.03f}` format raises TypeError before `part.set_size` is ever
looked up — a TypeError, not the AttributeError the claim asserts. -/
theorem c2_add_part_typeerror_on_missing_nominal :
    (c2stack.add_part c2part).2 = some PyError.typeError ∧
    PyError.typeError ≠ PyError.attributeError :=
  ⟨rfl, by decide⟩

/-- **C2 (amended)**: every `add_part` call raises and leaves the stack
path (and so `s.parts`) unchanged, but the exception class depends on the
Part: when both `nominal_length` and `tolerance` are set, the eager log
repr succeeds and the call raises AttributeError from the nonexistent
`part.set_size`; when either is None, the log f-string's `Part.__repr__`
raises TypeError first.  In all cases the failure precedes the append. -/
theorem c2_add_part_always_raises (sp : StackPath) (p : Part) :
    (p.nominal_length.isSome → p.tolerance.isSome →
      sp.add_part p = (sp, some PyError.attributeError)) ∧
    (p.nominal_length = none ∨ p.tolerance = none →
      sp.add_part p = (sp, some PyError.typeError)) ∧
    (sp.add_part p).1 = sp ∧ (sp.add_part p).2.isSome := by
  obtain ⟨nm, dist, noml, tol, conc, run, lim, sz, skw, lens, concs⟩ := p
  cases noml with
  | none =>
    refine ⟨?_, fun _ => rfl, rfl, rfl⟩
    intro h1 _
    simp at h1
  | some nv =>
    cases tol with
    | none =>
      refine ⟨?_, fun _ => rfl, rfl, rfl⟩
      intro _ h2
      simp at h2
    | some tv =>
      refine ⟨fun _ _ => rfl, ?_, rfl, rfl⟩
      intro h
      rcases h with h | h <;> simp at h

/-- A part with both `nominal_length` and `tolerance` set (for the C2
witness). -/
def c2partW : Part :=
  { name := "w"
    distribution := "norm"
    nominal_length := some 1
    tolerance := some 1
    concentricity := none
    runout := none
    limits := none
    size := 1
    skewiness := none
    lengths := some [1]
    concentricities := none }

theorem c2_add_part_always_raises_witness :
    c2stack.add_part c2partW = (c2stack, some PyError.attributeError) :=
  (c2_add_part_always_raises c2stack c2partW).1 rfl rfl

/-- A concrete part with a one-sample length population, used for C1. -/
def c1part (nm : String) : Part :=
  { name := nm
    distribution := "norm"
    nominal_length := some 1
    tolerance := some (3/10)
    concentricity := none
    runout := none
    limits := none
    size := 1
    skewiness := none
    lengths := some [1]
    concentricities := none }

/-- A concrete length-mode stack path already holding one part (for C1). -/
def c1stack : StackPath :=
  { parts := [c1part "a"]
    max_length := some 2
    min_length := some 0
    max_concentricity := none
    name := "Tolerance Stackup Report"
    description := none
    size := 1 }

/-- **C1** (code bug): `c1stack` already holds one Part and `c1part "b"`
has the same length-mode sample count (both populations have one sample),
yet `add_part` neither appends it nor performs any sample-count validation:
with nominal and tolerance set the log repr succeeds, and the call then
raises AttributeError from the nonexistent `part.set_size`, leaving the
stack unchanged.  No SampleSizeMismatchError-style check exists anywhere in
`add_part`. -/
theorem c1_add_part_no_validation :
    (c1stack.add_part (c1part "b")).2 = some PyError.attributeError ∧
    (c1stack.add_part (c1part "b")).1 = c1stack :=
  ⟨rfl, rfl⟩

/-! ## Claim about the concentricity out-of-tolerance statistic -/

/-- A concentricity-only part (for C3). -/
def c3part : Part :=
  { name := "p"
    distribution := "norm"
    nominal_length := none
    tolerance := none
    concentricity := some 1
    runout := none
    limits := none
    size := 1
    skewiness := none
    lengths := none
    concentricities := none }

/-- Random inputs making `c3part`'s refreshed concentricity population
`[(0, 1)]`: radial magnitude 1 at angle π/2. -/
def c3rand : ℕ → Rand := fun _ => ⟨fun _ => [], fun _ => [1], [(0, 1)]⟩

/-- A concentricity-mode stack with `max_concentricity = 1/2` (for C3). -/
def c3stack : StackPath :=
  { parts := [c3part]
    max_length := none
    min_length := none
    max_concentricity := some (1/2)
    name := "Tolerance Stackup Report"
    description := none
    size := 1 }

/-- **C3** (code bug): the reported out-of-tolerance statistic counts
composed samples with `abs(finals.real) >= max_concentricity` — the
absolute value of the REAL PART — not the complex modulus the claim (and
the code's own "outside the circle" comment) describe.  With the composed
population `[(0, 1)]` (the unit-imaginary sample, modulus 1) and
`max_concentricity = 1/2`, the pipeline reports 0 % out of range although
every sample lies outside the tolerance circle: the modulus-based count is
1 of 1. -/
theorem c3_out_of_range_uses_real_part :
    c3stack.show_concentricity_stat c3rand = .ok 0 ∧
    out_of_range_count [((0 : ℚ), (1 : ℚ))] (1/2) = 0 ∧
    modulus_out_count [((0 : ℚ), (1 : ℚ))] (1/2) = 1 := by
  refine ⟨?_, ?_, ?_⟩
  · show c3stack.show_concentricity_stat c3rand = .ok 0
    norm_num [StackPath.show_concentricity_stat, c3stack, c3part, c3rand,
      refreshConcAux, Part.refresh, Part.refreshBody, Part.refreshConc,
      Part.refreshRunout, norm, getConcPops, npAddC, List.foldlM,
      out_of_range_count,
      List.filter, pyAbs, bind, Except.bind, pure, Except.pure]
  · norm_num [out_of_range_count, List.filter, pyAbs]
  · norm_num [modulus_out_count, List.filter]

/-! ## Structural lemmas about `Part.refresh` -/

theorem refreshRunout_fst (p : Part) : (p.refreshRunout).1 = p := by
  unfold Part.refreshRunout
  cases p.runout <;> rfl

theorem refreshRunout_snd (p : Part) :
    (p.refreshRunout).2 = none ∨
    (p.refreshRunout).2 = some PyError.runoutNotImplemented := by
  unfold Part.refreshRunout
  cases p.runout
  · exact Or.inl rfl
  · exact Or.inr rfl

theorem refreshConc_fst (p : Part) (r : Rand) :
    ∃ cs, (p.refreshConc r).1 = { p with concentricities := cs } := by
  obtain ⟨nm, dist, noml, tol, conc, run, lim, sz, skw, lens, concs⟩ := p
  unfold Part.refreshConc
  cases conc with
  | none =>
    unfold Part.refreshRunout
    cases run with
    | none => exact ⟨concs, rfl⟩
    | some rv => exact ⟨concs, rfl⟩
  | some c =>
    by_cases hd : dist = "norm"
    · cases run with
      | none =>
        simp only [Part.refreshRunout, hd]
        exact ⟨_, rfl⟩
      | some rv =>
        simp only [Part.refreshRunout, hd]
        exact ⟨_, rfl⟩
    · simp only [hd]
      exact ⟨concs, rfl⟩

theorem refreshConc_snd (p : Part) (r : Rand) :
    (p.refreshConc r).2 = none ∨
    (p.refreshConc r).2 = some PyError.concentricityNotImplemented ∨
    (p.refreshConc r).2 = some PyError.runoutNotImplemented := by
  obtain ⟨nm, dist, noml, tol, conc, run, lim, sz, skw, lens, concs⟩ := p
  unfold Part.refreshConc
  cases conc with
  | none =>
    unfold Part.refreshRunout
    cases run with
    | none => exact Or.inl rfl
    | some rv => exact Or.inr (Or.inr rfl)
  | some c =>
    by_cases hd : dist = "norm"
    · cases run with
      | none =>
        simp only [Part.refreshRunout, hd]
        exact Or.inl rfl
      | some rv =>
        simp only [Part.refreshRunout, hd]
        exact Or.inr (Or.inr rfl)
    · simp only [hd]
      exact Or.inr (Or.inl rfl)

theorem refreshBody_fst (p : Part) (r : Rand) :
    ∃ ls cs, (p.refreshBody r).1 =
      { p with lengths := ls, concentricities := cs } := by
  obtain ⟨nm, dist, noml, tol, conc, run, lim, sz, skw, lens, concs⟩ := p
  cases noml with
  | none =>
    simp only [Part.refreshBody]
    obtain ⟨cs, hcs⟩ := refreshConc_fst
      (Part.mk nm dist none tol conc run lim sz skw lens concs) r
    exact ⟨lens, cs, hcs⟩
  | some nom =>
    simp only [Part.refreshBody]
    cases hs : Part.lengthsSample
        (Part.mk nm dist (some nom) tol conc run lim sz skw lens concs)
        nom r.drawL with
    | error e => exact ⟨lens, concs, rfl⟩
    | ok ls =>
      obtain ⟨cs, hcs⟩ := refreshConc_fst
        (Part.mk nm dist (some nom) tol conc run lim sz skw (some ls) concs) r
      exact ⟨some ls, cs, hcs⟩

theorem refresh_fst (p : Part) (size? : Option ℕ) (r : Rand) :
    ∃ sz ls cs, (p.refresh size? r).1 =
      { p with size := sz, lengths := ls, concentricities := cs } := by
  unfold Part.refresh
  cases size? with
  | none =>
    obtain ⟨ls, cs, h⟩ := refreshBody_fst p r
    exact ⟨p.size, ls, cs, h⟩
  | some n =>
    obtain ⟨ls, cs, h⟩ := refreshBody_fst { p with size := n } r
    exact ⟨n, ls, cs, h⟩

theorem lengthsSample_not_invalid {p : Part} {nom : ℚ} {draw : Draw}
    (hmem : p.distribution ∈ validDistributions) :
    p.lengthsSample nom draw ≠ Except.error PyError.invalidDistribution := by
  intro h
  simp only [validDistributions, List.mem_cons, List.not_mem_nil,
    or_false] at hmem
  unfold Part.lengthsSample at h
  rcases hmem with h1 | h1 | h1 | h1 | h1 | h1
  · rw [h1] at h
    cases ht : p.tolerance <;> simp [pyScale3, ht, bind, Except.bind] at h
  · rw [h1] at h
    cases ht : p.tolerance with
    | none => simp [pyScale3, ht, bind, Except.bind] at h
    | some t =>
      cases hl : p.limits with
      | none =>
        simp [pyScale3, ht, hl, bind, Except.bind] at h
        exact absurd (norm_screened_error_convergence h) (by simp)
      | some l =>
        cases l with
        | scalar x => simp [pyScale3, ht, hl, bind, Except.bind] at h
        | pair a b =>
          simp [pyScale3, ht, hl, bind, Except.bind] at h
          exact absurd (norm_screened_error_convergence h) (by simp)
  · rw [h1] at h
    cases ht : p.tolerance with
    | none => simp [pyScale3, ht, bind, Except.bind] at h
    | some t =>
      cases hl : p.limits with
      | none =>
        simp [pyScale3, ht, hl, bind, Except.bind] at h
        exact absurd (norm_notched_error_convergence h) (by simp)
      | some l =>
        cases l with
        | scalar x => simp [pyScale3, ht, hl, bind, Except.bind] at h
        | pair a b =>
          simp [pyScale3, ht, hl, bind, Except.bind] at h
          exact absurd (norm_notched_error_convergence h) (by simp)
  · rw [h1] at h
    cases ht : p.tolerance with
    | none => simp [pyScale3, ht, bind, Except.bind] at h
    | some t =>
      cases hl : p.limits with
      | none => simp [pyScale3, ht, hl, bind, Except.bind] at h
      | some l =>
        cases l with
        | scalar x =>
          simp [pyScale3, ht, hl, bind, Except.bind] at h
          exact absurd (norm_lt_error_convergence h) (by simp)
        | pair a b =>
          simp [pyScale3, ht, hl, bind, Except.bind] at h
          exact absurd (norm_lt_error_convergence h) (by simp)
  · rw [h1] at h
    cases ht : p.tolerance with
    | none => simp [pyScale3, ht, bind, Except.bind] at h
    | some t =>
      cases hl : p.limits with
      | none => simp [pyScale3, ht, hl, bind, Except.bind] at h
      | some l =>
        cases l with
        | scalar x =>
          simp [pyScale3, ht, hl, bind, Except.bind] at h
          exact absurd (norm_gt_error_convergence h) (by simp)
        | pair a b =>
          simp [pyScale3, ht, hl, bind, Except.bind] at h
          exact absurd (norm_gt_error_convergence h) (by simp)
  · rw [h1] at h
    cases hs : p.skewiness <;> cases ht : p.tolerance <;>
      simp [hs, ht] at h

theorem refreshBody_not_invalid {p : Part} {r : Rand}
    (hmem : p.distribution ∈ validDistributions) :
    (p.refreshBody r).2 ≠ some PyError.invalidDistribution := by
  obtain ⟨nm, dist, noml, tol, conc, run, lim, sz, skw, lens, concs⟩ := p
  cases noml with
  | none =>
    simp only [Part.refreshBody]
    rcases refreshConc_snd
        (Part.mk nm dist none tol conc run lim sz skw lens concs) r with
      h | h | h <;> rw [h] <;> simp
  | some nom =>
    simp only [Part.refreshBody]
    cases hs : Part.lengthsSample
        (Part.mk nm dist (some nom) tol conc run lim sz skw lens concs)
        nom r.drawL with
    | error e =>
      have hne : e ≠ PyError.invalidDistribution := by
        intro he
        exact lengthsSample_not_invalid hmem (he ▸ hs)
      simpa using hne
    | ok ls =>
      rcases refreshConc_snd
          (Part.mk nm dist (some nom) tol conc run lim sz skw (some ls) concs)
          r with h | h | h <;> rw [h] <;> simp

theorem refresh_not_invalid {p : Part} {size? : Option ℕ} {r : Rand}
    (hmem : p.distribution ∈ validDistributions) :
    (p.refresh size? r).2 ≠ some PyError.invalidDistribution := by
  unfold Part.refresh
  cases size? with
  | none => exact refreshBody_not_invalid hmem
  | some n => exact refreshBody_not_invalid (by simpa using hmem)

/-! ## Claim about distribution validation -/

/-- The recognized distribution set as the claim words it (the spec lists
`skew-normal`), for comparison with the code's `validDistributions`. -/
def claimedDistributions : List String :=
  ["norm", "norm-screened", "norm-notched", "norm-lt", "norm-gt",
   "skew-normal"]

/-- **C7 counterexample**: `"skew-normal"` is in the claim's recognized set
(and is its own lowercase form), yet `Part.__init__` rejects it with the
InvalidDistributionError-class error: the tag the code recognizes is
`"skew-norm"` (part.py line 120), so the claim's biconditional fails at the
input `distribution = "skew-normal"` even with a skewiness supplied. -/
theorem c7_skew_normal_tag_rejected :
    pyLower "skew-normal" ∈ claimedDistributions ∧
    Part.init "p" "skew-normal" 5 none none none none none (some 1)
      ⟨fun _ => [], fun _ => [], []⟩ =
      .error .invalidDistribution := by
  constructor
  · decide
  · rfl

/-- **C7 (amended)**: Part construction raises an
InvalidDistributionError-class error if and only if the given distribution
string, matched case-insensitively (normalized to lowercase), is not in the
recognized set {norm, norm-screened, norm-notched, norm-lt, norm-gt,
skew-norm} — the code's last tag is `skew-norm`, not the claim's
`skew-normal`; for a recognized kind the Part stores the lowercased tag and
construction does not raise that error (though it may fail for other
reasons, e.g. a missing skewiness). -/
theorem c7_distribution_validation (nm d : String) (size : ℕ)
    (nominal_length tolerance concentricity runout : Option ℚ)
    (limits : Option PyLimits) (skewiness : Option ℚ) (r : Rand) :
    (Part.init nm d size nominal_length tolerance concentricity runout
        limits skewiness r = .error .invalidDistribution ↔
      pyLower d ∉ validDistributions) ∧
    ∀ p, Part.init nm d size nominal_length tolerance concentricity runout
        limits skewiness r = .ok p → p.distribution = pyLower d := by
  by_cases hmem : pyLower d ∈ validDistributions
  · constructor
    · constructor
      · intro h
        exfalso
        unfold Part.init at h
        rw [if_neg (not_not_intro hmem)] at h
        split at h
        · exact absurd h (by simp)
        · rcases hre : (Part.initRecord nm d size nominal_length tolerance
              concentricity runout limits skewiness).refresh none r with ⟨p', oe⟩
          rw [hre] at h
          cases oe with
          | none => exact absurd h (by simp)
          | some e =>
            have he : e = PyError.invalidDistribution := by simpa using h
            have hmem' : (Part.initRecord nm d size nominal_length tolerance
                concentricity runout limits skewiness).distribution ∈
                validDistributions := by
              simpa [Part.initRecord] using hmem
            have hni := @refresh_not_invalid (Part.initRecord nm d size
              nominal_length tolerance concentricity runout limits skewiness)
              none r hmem'
            rw [hre] at hni
            exact hni (by rw [he])
      · intro h
        exact absurd hmem h
    · intro p hp
      unfold Part.init at hp
      rw [if_neg (not_not_intro hmem)] at hp
      split at hp
      · exact absurd hp (by simp)
      · rcases hre : (Part.initRecord nm d size nominal_length tolerance
            concentricity runout limits skewiness).refresh none r with ⟨p', oe⟩
        rw [hre] at hp
        cases oe with
        | some e => exact absurd hp (by simp)
        | none =>
          have hp' : p' = p := by simpa using hp
          obtain ⟨sz, ls, cs, hfst⟩ := refresh_fst (Part.initRecord nm d size
            nominal_length tolerance concentricity runout limits skewiness)
            none r
          rw [hre] at hfst
          have hfst' : p' = { Part.initRecord nm d size nominal_length
              tolerance concentricity runout limits skewiness with
              size := sz, lengths := ls, concentricities := cs } := hfst
          rw [← hp', hfst']
          simp [Part.initRecord]
  · constructor
    · constructor
      · intro _
        exact hmem
      · intro _
        unfold Part.init
        rw [if_pos hmem]
    · intro p hp
      unfold Part.init at hp
      rw [if_pos hmem] at hp
      exact absurd hp (by simp)

theorem c7_distribution_validation_witness :
    Part.init "p" "NORM" 5 none none none none none none
      ⟨fun _ => [], fun _ => [], []⟩ =
      .ok (Part.initRecord "p" "NORM" 5 none none none none none none) ∧
    (Part.initRecord "p" "NORM" 5 none none none none none
        none).distribution = "norm" := by
  have hinit : Part.init "p" "NORM" 5 none none none none none none
      ⟨fun _ => [], fun _ => [], []⟩ =
      .ok (Part.initRecord "p" "NORM" 5 none none none none none none) := rfl
  have h := (c7_distribution_validation "p" "NORM" 5 none none none none none
      none ⟨fun _ => [], fun _ => [], []⟩).2 _ hinit
  exact ⟨hinit, by rw [h]; rfl⟩

/-! ## Claim about length-mode composition -/

theorem getD_of_lt {α : Type} {l : List α} {i : ℕ} (h : i < l.length)
    (d : α) : l.getD i d = l[i] := by
  rw [List.getD_eq_getElem?_getD, List.getElem?_eq_getElem h]
  rfl

/-- The accumulation loop `finals += part.lengths`: folding `npAdd` over
populations of a common length succeeds and computes the elementwise sum. -/
theorem foldlM_npAdd_ok (pops : List (List ℚ)) :
    ∀ acc : List ℚ, (∀ pop ∈ pops, pop.length = acc.length) →
    ∃ res, pops.foldlM npAdd acc = .ok res ∧ res.length = acc.length ∧
      ∀ i, i < acc.length →
        res.getD i 0 = acc.getD i 0 + (pops.map fun pop => pop.getD i 0).sum := by
  induction pops with
  | nil =>
    intro acc _
    exact ⟨acc, rfl, rfl, fun i _ => by simp⟩
  | cons pop pops ih =>
    intro acc hlen
    have hpop : pop.length = acc.length := hlen pop (by simp)
    have hstep : npAdd acc pop = .ok (List.zipWith (· + ·) acc pop) := by
      unfold npAdd
      rw [if_pos hpop.symm]
    have hzlen : (List.zipWith (· + ·) acc pop).length = acc.length := by
      rw [List.length_zipWith, hpop]
      exact min_self _
    obtain ⟨res, hres, hreslen, helem⟩ := ih (List.zipWith (· + ·) acc pop)
      (fun q hq => by rw [hzlen]; exact hlen q (List.mem_cons_of_mem _ hq))
    refine ⟨res, ?_, by rw [hreslen, hzlen], ?_⟩
    · rw [List.foldlM_cons, hstep]
      simpa [bind, Except.bind] using hres
    · intro i hi
      have hi' : i < (List.zipWith (· + ·) acc pop).length := by
        rw [hzlen]; exact hi
      have hip : i < pop.length := by omega
      have hzip : (List.zipWith (· + ·) acc pop).getD i 0 =
          acc.getD i 0 + pop.getD i 0 := by
        rw [getD_of_lt hi', List.getElem_zipWith, getD_of_lt hi,
          getD_of_lt hip]
      rw [helem i hi', hzip, List.map_cons, List.sum_cons]
      ring

/-- `getLengthPops` succeeds on parts that all carry a length population and
returns exactly those populations. -/
theorem getLengthPops_ok {parts : List Part}
    (h : ∀ q ∈ parts, q.lengths.isSome) :
    getLengthPops parts = .ok (parts.map fun q => q.lengths.getD []) := by
  induction parts with
  | nil => rfl
  | cons p ps ih =>
    obtain ⟨l, hl⟩ := Option.isSome_iff_exists.mp (h p (by simp))
    unfold getLengthPops
    rw [hl, ih (fun q hq => h q (by simp [hq]))]
    simp [bind, Except.bind, hl]

/-- **C8**: For every StackPath in length mode holding one or more Parts
whose (refreshed) length populations all have the same length N, composition
first refreshes every owned Part (`_refresh_parts`) and then produces a
derived population of length N whose i-th element equals the arithmetic
sum, over all owned Parts, of that Part's i-th length sample. -/
theorem c8_length_composition (sp : StackPath) (rs : ℕ → Rand)
    (parts' : List Part) (N : ℕ)
    (href : refreshPartsAux rs sp.parts 0 = .ok parts')
    (hne : parts' ≠ [])
    (hnom : ∀ q ∈ parts', q.nominal_length.isSome)
    (hN : ∀ q ∈ parts', ∃ l, q.lengths = some l ∧ l.length = N) :
    ∃ finals, sp.show_length_dist_finals rs = .ok finals ∧
      finals.length = N ∧
      ∀ i, i < N → finals.getD i 0 =
        (parts'.map fun q => (q.lengths.getD []).getD i 0).sum := by
  have hsome : ∀ q ∈ parts', q.lengths.isSome := by
    intro q hq
    obtain ⟨l, hl, _⟩ := hN q hq
    simp [hl]
  unfold StackPath.show_length_dist_finals StackPath._refresh_parts
  rw [href]
  simp only [bind, Except.bind]
  cases hps : parts' with
  | nil => exact absurd hps hne
  | cons p0 rest =>
    simp only
    rw [if_pos (List.all_eq_true.mpr fun q hq => hnom q (hps ▸ hq))]
    rw [show getLengthPops (p0 :: rest) =
        .ok ((p0 :: rest).map fun q => q.lengths.getD []) from
      hps ▸ getLengthPops_ok (fun q hq => hsome q (hps ▸ hq))]
    simp only [bind, Except.bind]
    have hlen0 : (p0.lengths.getD []).length = N := by
      obtain ⟨l, hl, hll⟩ := hN p0 (hps ▸ List.mem_cons_self p0 rest)
      simp [hl, hll]
    obtain ⟨res, hres, hreslen, helem⟩ :=
      foldlM_npAdd_ok ((p0 :: rest).map fun q => q.lengths.getD [])
        (List.replicate (p0.lengths.getD []).length 0)
        (by
          intro pop hpop
          rw [List.length_replicate, hlen0]
          obtain ⟨q, hq, hqe⟩ := List.mem_map.mp hpop
          obtain ⟨l, hl, hll⟩ := hN q (hps ▸ hq)
          rw [← hqe]
          simp [hl, hll])
    rw [hres]
    refine ⟨res, rfl, ?_, ?_⟩
    · rw [hreslen, List.length_replicate, hlen0]
    · intro i hi
      have hi' : i < (List.replicate (p0.lengths.getD []).length (0 : ℚ)).length := by
        rw [List.length_replicate, hlen0]; exact hi
      rw [helem i hi', getD_of_lt hi', List.getElem_replicate]
      simp [List.map_map, Function.comp_def]

/-- Concrete two-part length-mode stack for the C8 witness. -/
def c8stack : StackPath :=
  { parts := [
      { name := "a", distribution := "norm", nominal_length := some 1,
        tolerance := some 3, concentricity := none, runout := none,
        limits := none, size := 2, skewiness := none,
        lengths := none, concentricities := none },
      { name := "b", distribution := "norm", nominal_length := some 2,
        tolerance := some 3, concentricity := none, runout := none,
        limits := none, size := 2, skewiness := none,
        lengths := none, concentricities := none }]
    max_length := some 100
    min_length := some 0
    max_concentricity := none
    name := "Tolerance Stackup Report"
    description := none
    size := 2 }

/-- Per-part random draws for the C8 witness. -/
def c8rand : ℕ → Rand := fun i =>
  if i = 0 then ⟨fun _ => [1, 2], fun _ => [], []⟩
  else ⟨fun _ => [10, 20], fun _ => [], []⟩

/-- The parts of `c8stack` after `_refresh_parts` under `c8rand`. -/
def c8partsR : List Part :=
  [{ name := "a", distribution := "norm", nominal_length := some 1,
     tolerance := some 3, concentricity := none, runout := none,
     limits := none, size := 2, skewiness := none,
     lengths := some [1, 2], concentricities := none },
   { name := "b", distribution := "norm", nominal_length := some 2,
     tolerance := some 3, concentricity := none, runout := none,
     limits := none, size := 2, skewiness := none,
     lengths := some [10, 20], concentricities := none }]

theorem c8_length_composition_witness :
    (c8stack.show_length_dist_finals c8rand).toOption.map
      (fun l => (l.length, l.getD 0 0, l.getD 1 0)) = some (2, 11, 22) := by
  obtain ⟨finals, hf, hlen, helem⟩ := c8_length_composition c8stack c8rand
    c8partsR 2 rfl (by simp [c8partsR])
    (by
      intro q hq
      simp only [c8partsR, List.mem_cons, List.not_mem_nil, or_false] at hq
      rcases hq with h | h <;> subst h <;> rfl)
    (by
      intro q hq
      simp only [c8partsR, List.mem_cons, List.not_mem_nil, or_false] at hq
      rcases hq with h | h <;> subst h
      · exact ⟨[1, 2], rfl, rfl⟩
      · exact ⟨[10, 20], rfl, rfl⟩)
  have h0 := helem 0 (by norm_num)
  have h1 := helem 1 (by norm_num)
  norm_num [c8partsR] at h0 h1
  rw [hf]
  simp only [Except.toOption, Option.map_some]
  refine congrArg some ?_
  refine Prod.ext hlen (Prod.ext ?_ ?_)
  · show finals.getD 0 0 = 11
    simpa using h0
  · show finals.getD 1 0 = 22
    simpa using h1

/-! ## Claim about the transactionality of `Part.refresh` -/

/-- A concentricity error is raised with the object returned exactly as it
entered the concentricity block. -/
theorem refreshConc_concNI (p : Part) (r : Rand) (p' : Part)
    (h : p.refreshConc r = (p', some PyError.concentricityNotImplemented)) :
    p' = p := by
  obtain ⟨nm, dist, noml, tol, conc, run, lim, sz, skw, lens, concs⟩ := p
  unfold Part.refreshConc at h
  cases conc with
  | none =>
    unfold Part.refreshRunout at h
    cases run <;> simp at h
  | some c =>
    by_cases hd : dist = "norm"
    · simp only [Part.refreshRunout, hd] at h
      cases run <;> simp at h
    · simp only [hd] at h
      simp at h
      exact h.symm

/-- Error-phase analysis of `Part.refreshBody`: length-phase errors leave
the object untouched, and a concentricity error leaves the concentricity
population untouched. -/
theorem refreshBody_error_phases (p : Part) (r : Rand) (p' : Part)
    (e : PyError) (h : p.refreshBody r = (p', some e)) :
    (e = PyError.convergence ∨ e = PyError.invalidDistribution ∨
        e = PyError.typeError →
      p'.lengths = p.lengths ∧ p'.concentricities = p.concentricities) ∧
    (e = PyError.concentricityNotImplemented →
      p'.concentricities = p.concentricities) := by
  obtain ⟨nm, dist, noml, tol, conc, run, lim, sz, skw, lens, concs⟩ := p
  cases noml with
  | none =>
    simp only [Part.refreshBody] at h
    constructor
    · intro he
      rcases refreshConc_snd
          (Part.mk nm dist none tol conc run lim sz skw lens concs) r with
        hs | hs | hs <;> rw [h] at hs <;> simp at hs <;> subst hs <;>
        rcases he with h1 | h1 | h1 <;> simp at h1
    · intro he
      subst he
      rw [refreshConc_concNI _ r p' h]
  | some nom =>
    simp only [Part.refreshBody] at h
    cases hs : Part.lengthsSample
        (Part.mk nm dist (some nom) tol conc run lim sz skw lens concs)
        nom r.drawL with
    | error el =>
      rw [hs] at h
      simp only [Prod.mk.injEq, Option.some.injEq] at h
      obtain ⟨hp', he⟩ := h
      constructor
      · intro _
        rw [← hp']
        exact ⟨rfl, rfl⟩
      · intro _
        rw [← hp']
    | ok ls =>
      rw [hs] at h
      replace h : Part.refreshConc
          (Part.mk nm dist (some nom) tol conc run lim sz skw (some ls)
            concs) r = (p', some e) := h
      constructor
      · intro he
        rcases refreshConc_snd
            (Part.mk nm dist (some nom) tol conc run lim sz skw (some ls)
              concs) r with hc | hc | hc <;> rw [h] at hc <;> simp at hc <;>
          subst hc <;> rcases he with h1 | h1 | h1 <;> simp at h1
      · intro he
        subst he
        rw [refreshConc_concNI _ r p' h]

/-- A part whose refresh fails in the concentricity block after a
successful length resampling (for the C9 counterexample). -/
def c9part : Part :=
  { name := "p", distribution := "skew-norm", nominal_length := some 1,
    tolerance := some 3, concentricity := some 1, runout := none,
    limits := none, size := 1, skewiness := some 1,
    lengths := some [0], concentricities := none }

/-- A part whose refresh fails on the runout check after a successful
length resampling (for the C9 counterexample). -/
def c9partB : Part :=
  { name := "q", distribution := "norm", nominal_length := some 1,
    tolerance := some 3, concentricity := none, runout := some 1,
    limits := none, size := 1, skewiness := none,
    lengths := some [0], concentricities := none }

/-- Random input for the C9 counterexample and witness. -/
def c9rand : Rand := ⟨fun _ => [5], fun _ => [], []⟩

/-- **C9 counterexample**: a failing `refresh` can leave the length
population CHANGED.  `c9part` (skew-norm with a concentricity radius)
resamples `lengths` from `[0]` to `[5]` and only then raises the
concentricity error; `c9partB` (norm with a runout value) resamples
`lengths` from `[0]` to `[5]` and only then raises the runout error.  In
both cases the populations held immediately before the failed call are not
preserved, contradicting the claim. -/
theorem c9_refresh_not_transactional :
    (c9part.refresh none c9rand).2 =
        some PyError.concentricityNotImplemented ∧
      (c9part.refresh none c9rand).1.lengths = some [5] ∧
      c9part.lengths = some [0] ∧
    (c9partB.refresh none c9rand).2 = some PyError.runoutNotImplemented ∧
      (c9partB.refresh none c9rand).1.lengths = some [5] ∧
      c9partB.lengths = some [0] :=
  ⟨rfl, rfl, rfl, rfl, rfl, rfl⟩

/-- **C9 (amended)**: a refresh that fails while computing the length
population (sampler non-convergence, an invalid distribution tag, or a
missing/ill-typed parameter) leaves both the lengths and the
concentricities populations unchanged; a refresh that fails because
concentricity is requested with a distribution other than `norm` leaves the
concentricities population unchanged (the length population may already
have been resampled); a runout failure is raised after both blocks, so
neither population is guaranteed unchanged. -/
theorem c9_refresh_failure_phases (p : Part) (size? : Option ℕ) (r : Rand)
    (p' : Part) (e : PyError) (h : p.refresh size? r = (p', some e)) :
    (e = PyError.convergence ∨ e = PyError.invalidDistribution ∨
        e = PyError.typeError →
      p'.lengths = p.lengths ∧ p'.concentricities = p.concentricities) ∧
    (e = PyError.concentricityNotImplemented →
      p'.concentricities = p.concentricities) := by
  unfold Part.refresh at h
  cases size? with
  | none => exact refreshBody_error_phases p r p' e h
  | some n =>
    have := refreshBody_error_phases { p with size := n } r p' e h
    simpa using this

/-- A part whose refresh fails with a `TypeError` before any assignment
(`tolerance` missing with a nominal length set), for the C9 witness. -/
def c9partW : Part :=
  { name := "w", distribution := "norm", nominal_length := some 1,
    tolerance := none, concentricity := none, runout := none,
    limits := none, size := 1, skewiness := none,
    lengths := some [3], concentricities := none }

theorem c9_refresh_failure_phases_witness :
    (c9partW.refresh none c9rand).1.lengths = c9partW.lengths ∧
    (c9partW.refresh none c9rand).1.concentricities =
      c9partW.concentricities := by
  have h := c9_refresh_failure_phases c9partW none c9rand
    (c9partW.refresh none c9rand).1 PyError.typeError rfl
  exact h.1 (Or.inr (Or.inr rfl))

/-! ## Claim about the `to_dict` round trip -/

theorem pyAbs_nonneg (x : ℚ) : 0 ≤ pyAbs x := by
  unfold pyAbs
  split
  · linarith
  · linarith

theorem pyAbs_of_nonneg {x : ℚ} (h : 0 ≤ x) : pyAbs x = x := by
  unfold pyAbs
  rw [if_neg (by linarith)]

/-- Storing the absolute tolerance is idempotent. -/
theorem normalizeTolerance_idem (t : Option ℚ) :
    normalizeTolerance (normalizeTolerance t) = normalizeTolerance t := by
  cases t with
  | none => rfl
  | some v =>
    by_cases hv : v = 0
    · simp [normalizeTolerance, hv]
    · by_cases ha : pyAbs v = 0
      · simp [normalizeTolerance, hv, ha]
      · simp [normalizeTolerance, hv, ha,
          pyAbs_of_nonneg (pyAbs_nonneg v)]

/-- Every recognized tag is already lowercase. -/
theorem pyLower_of_valid {s : String} (h : s ∈ validDistributions) :
    pyLower s = s := by
  simp only [validDistributions, List.mem_cons, List.not_mem_nil,
    or_false] at h
  rcases h with h | h | h | h | h | h <;> subst h <;> rfl

/-- Inversion of a successful `Part.__init__`: the stored attributes. -/
theorem init_ok_fields {nm d : String} {size : ℕ}
    {nominal_length tolerance concentricity runout : Option ℚ}
    {limits : Option PyLimits} {skewiness : Option ℚ} {r : Rand} {p : Part}
    (h : Part.init nm d size nominal_length tolerance concentricity runout
      limits skewiness r = .ok p) :
    p.name = nm ∧ p.distribution = pyLower d ∧
    p.nominal_length = nominal_length ∧
    p.tolerance = normalizeTolerance tolerance ∧
    pyLower d ∈ validDistributions := by
  by_cases hmem : pyLower d ∈ validDistributions
  · unfold Part.init at h
    rw [if_neg (not_not_intro hmem)] at h
    split at h
    · exact absurd h (by simp)
    · rcases hre : (Part.initRecord nm d size nominal_length tolerance
          concentricity runout limits skewiness).refresh none r with ⟨p', oe⟩
      rw [hre] at h
      cases oe with
      | some e => exact absurd h (by simp)
      | none =>
        have hp' : p' = p := by simpa using h
        obtain ⟨sz, ls, cs, hfst⟩ := refresh_fst (Part.initRecord nm d size
          nominal_length tolerance concentricity runout limits skewiness)
          none r
        rw [hre] at hfst
        have hfst' : p' = { Part.initRecord nm d size nominal_length
            tolerance concentricity runout limits skewiness with
            size := sz, lengths := ls, concentricities := cs } := hfst
        refine ⟨?_, ?_, ?_, ?_, hmem⟩ <;> rw [← hp', hfst'] <;>
          simp [Part.initRecord]
  · unfold Part.init at h
    rw [if_pos hmem] at h
    exact absurd h (by simp)

/-- **C10**: For every validly constructed Part, serializing it with
`to_dict()` and constructing a new Part from that dictionary's fields
(name, distribution, nominal value as nominal_length, tolerance, supplying
equivalent remaining parameters) yields a Part whose name, nominal_length,
tolerance, and distribution attributes equal the original's — the stored
abs-tolerance and lowercased-distribution normalizations are idempotent
under the round trip. -/
theorem c10_to_dict_round_trip (nm d : String) (size size2 : ℕ)
    (nominal_length tolerance concentricity runout : Option ℚ)
    (limits : Option PyLimits) (skewiness : Option ℚ)
    (concentricity2 runout2 : Option ℚ) (limits2 : Option PyLimits)
    (skewiness2 : Option ℚ) (r r2 : Rand) (p p2 : Part)
    (h1 : Part.init nm d size nominal_length tolerance concentricity runout
      limits skewiness r = .ok p)
    (h2 : Part.init (p.to_dict).name (p.to_dict).distribution size2
      (p.to_dict).nominal_value (p.to_dict).tolerance concentricity2 runout2
      limits2 skewiness2 r2 = .ok p2) :
    p2.name = p.name ∧ p2.nominal_length = p.nominal_length ∧
    p2.tolerance = p.tolerance ∧ p2.distribution = p.distribution := by
  obtain ⟨hn1, hd1, hnl1, ht1, hmem1⟩ := init_ok_fields h1
  obtain ⟨hn2, hd2, hnl2, ht2, _⟩ := init_ok_fields h2
  simp only [Part.to_dict] at hn2 hd2 hnl2 ht2
  refine ⟨?_, ?_, ?_, ?_⟩
  · rw [hn2]
  · rw [hnl2]
  · rw [ht2, ht1, normalizeTolerance_idem]
  · rw [hd2]
    exact pyLower_of_valid (by rw [hd1]; exact hmem1)

/-- Random inputs for the two constructions in the C10 witness. -/
def c10rand : Rand := ⟨fun _ => [7], fun _ => [], []⟩

/-- Random inputs for the reconstruction in the C10 witness. -/
def c10rand2 : Rand := ⟨fun _ => [9], fun _ => [], []⟩

/-- The Part built by `Part.init "p" "Norm" … tolerance=-2` under
`c10rand`. -/
def c10p : Part :=
  { name := "p", distribution := "norm", nominal_length := some 1,
    tolerance := some 2, concentricity := none, runout := none,
    limits := none, size := 1, skewiness := none,
    lengths := some [7], concentricities := none }

/-- The Part rebuilt from `c10p.to_dict()` under `c10rand2`. -/
def c10p2 : Part :=
  { name := "p", distribution := "norm", nominal_length := some 1,
    tolerance := some 2, concentricity := none, runout := none,
    limits := none, size := 1, skewiness := none,
    lengths := some [9], concentricities := none }

theorem c10_to_dict_round_trip_witness :
    c10p2.name = c10p.name ∧ c10p2.nominal_length = c10p.nominal_length ∧
    c10p2.tolerance = c10p.tolerance ∧
    c10p2.distribution = c10p.distribution := by
  have h1 : Part.init "p" "Norm" 1 (some 1) (some (-2)) none none none none
      c10rand = .ok c10p := rfl
  have h2 : Part.init (c10p.to_dict).name (c10p.to_dict).distribution 1
      (c10p.to_dict).nominal_value (c10p.to_dict).tolerance none none none
      none c10rand2 = .ok c10p2 := rfl
  exact c10_to_dict_round_trip "p" "Norm" 1 1 (some 1) (some (-2)) none none
    none none none none none none c10rand c10rand2 c10p c10p2 h1 h2

end TolStack
